import Mathlib

/-!
Verification of the EVM-loader core of `solana-program-library` against its
natural-language specification.

Shallow embedding conventions:
* bytes are `Nat` values (0..255 by intent), byte buffers are `List Nat`;
* a 20-byte EVM address (`H160`) and a 32-byte host key (`Pubkey`) are byte lists;
* machine integers use `Nat` with explicit `% 2 ^ w` where the source truncates;
* fallible Rust code returns `Except`/`Option`; a Rust panic is modelled by a
  dedicated error constructor;
* the external EVM opcode interpreter (`evm::Runtime::step`) is abstracted as an
  oracle delivering one `StepOutcome` per invocation, and the `Machine` counts
  how many times that primitive has been invoked.

Each definition's doc comment names the source location it embeds.  Files of the
repository that the claims rely on but whose sources are not available
(`account_data.rs`, `hamt.rs`, `executor_state.rs`) are modelled from the spec
and marked `Modelled from the spec:`.
-/

/-! ## Basic result and exit types -/

/-- Exit-success reasons of the EVM interpreter (`evm::ExitSucceed`). -/
inductive ExitSucceed where
  | stopped
  | returned
  | suicided
deriving DecidableEq, Repr

/-- Exit-error reasons of the EVM interpreter (`evm::ExitError`); only the
variants the embedded code mentions are distinguished, the rest are `other`. -/
inductive ExitError where
  | invalidRange
  | callTooDeep
  | createCollision
  | createContractLimit
  | outOfFund
  | other (code : Nat)
deriving DecidableEq, Repr

/-- Fatal exit reasons of the EVM interpreter (`evm::ExitFatal`). -/
inductive ExitFatal where
  | notSupported
  | other (code : Nat)
deriving DecidableEq, Repr

/-- `evm::ExitReason`: the four-way exit classification used by `Machine::step`.
`Revert` carries no payload in the source (`ExitRevert::Reverted`). -/
inductive ExitReason where
  | succeed (s : ExitSucceed)
  | error (e : ExitError)
  | revert
  | fatal (f : ExitFatal)
deriving DecidableEq, Repr

/-- `solana_sdk::program_error::ProgramError` variants used by the embedded
code; `outOfStorage` stands for the spec's `OutOfStorage` HAMT failure (a
custom program error in the host SDK). -/
inductive ProgramError where
  | invalidArgument
  | invalidInstructionData
  | invalidAccountData
  | accountAlreadyInitialized
  | uninitializedAccount
  | notEnoughAccountKeys
  | accountDataTooSmall
  | outOfStorage
deriving DecidableEq, Repr

/-- A runtime outcome of embedded Rust code: either a `ProgramError` surfaced
through `Result`, or a Rust panic (slice out of range, failed `unwrap`). -/
inductive RtError where
  | prog (e : ProgramError)
  | panic
deriving DecidableEq, Repr

/-! ## Byte-buffer helpers -/

/-- Little-endian encoding of `v` into `w` bytes (`to_le_bytes`). -/
def toLE (w : Nat) (v : Nat) : List Nat :=
  (List.range w).map (fun i => v / 256 ^ i % 256)

/-- Big-endian `u16` read of the first two bytes (`u16::from_be_bytes`). -/
def be16 (l : List Nat) : Nat :=
  l.getD 0 0 * 256 + l.getD 1 0

/-- In-place byte copy: `buf[off..off+bs.length].copy_from_slice(bs)`.
Positions outside `[off, off + bs.length)` keep their old value; the length of
the buffer is preserved. -/
def writeRange (data : List Nat) (off : Nat) (bs : List Nat) : List Nat :=
  (List.range data.length).map
    (fun i => if off ≤ i ∧ i < off + bs.length then bs.getD (i - off) 0 else data.getD i 0)

theorem writeRange_length (data : List Nat) (off : Nat) (bs : List Nat) :
    (writeRange data off bs).length = data.length := by
  simp [writeRange]

theorem writeRange_getD (data : List Nat) (off : Nat) (bs : List Nat) (i : Nat) :
    (writeRange data off bs).getD i 0 =
      if i < data.length then
        (if off ≤ i ∧ i < off + bs.length then bs.getD (i - off) 0 else data.getD i 0)
      else 0 := by
  by_cases h : i < data.length
  · have : (writeRange data off bs)[i]? =
        some (if off ≤ i ∧ i < off + bs.length then bs.getD (i - off) 0 else data.getD i 0) := by
      simp [writeRange, List.getElem?_map, List.getElem?_range, h]
    simp [List.getD_eq_getElem?_getD, this, h]
  · have hlen : (writeRange data off bs).length ≤ i := by
      rw [writeRange_length]; omega
    have : (writeRange data off bs)[i]? = none := by
      exact List.getElem?_eq_none hlen
    simp [List.getD_eq_getElem?_getD, this, h]

/-- `slice::split_at(n)` as a fallible operation: `none` models the Rust panic
when `n` exceeds the slice length. -/
def splitAt? (n : Nat) (l : List Nat) : Option (List Nat × List Nat) :=
  if n ≤ l.length then some (l.take n, l.drop n) else none

/-! ## AccountLayout header -/

/-- Modelled from the spec: `account_data.rs` is not among the available
sources.  Spec §3/§4.1: fixed header `ether` (20 bytes, raw), `nonce` (1 byte),
`trx_count` (8 bytes LE), `signer` (32 bytes), `code_size` (4 bytes LE). -/
structure AccountData where
  ether : List Nat
  nonce : Nat
  trx_count : Nat
  signer : List Nat
  code_size : Nat
deriving DecidableEq, Repr

/-- Modelled from the spec: the header is the first 65 bytes
(20 + 1 + 8 + 32 + 4). -/
def AccountData.SIZE : Nat := 65

/-- Modelled from the spec: serialization of the fixed header, little-endian
multi-byte integers, `ether` as raw big-endian bytes. -/
def AccountData.serialize (h : AccountData) : List Nat :=
  h.ether ++ [h.nonce % 256] ++ toLE 8 h.trx_count ++ h.signer ++ toLE 4 h.code_size

/-- Modelled from the spec: `pack(header, bytes)` writes the header at offset 0
and fails with `AccountDataTooSmall` if the destination is shorter than the
header. -/
def AccountData.pack (h : AccountData) (data : List Nat) : Except ProgramError (List Nat) :=
  if data.length < AccountData.SIZE then .error .accountDataTooSmall
  else .ok (writeRange data 0 h.serialize)

/-! ## Write host instruction -/

/-- `do_write` from `src/evm_loader/program/src/entrypoint.rs` lines 240-249:
bytes are copied to `[offset + AccountData::SIZE, offset + AccountData::SIZE + bytes.len())`;
if the account data is shorter the instruction fails with `AccountDataTooSmall`
before any byte is written. -/
def do_write (data : List Nat) (offset : Nat) (bytes : List Nat) :
    Except ProgramError (List Nat) :=
  if data.length < offset + AccountData.SIZE + bytes.length then
    .error .accountDataTooSmall
  else
    .ok (writeRange data (offset + AccountData.SIZE) bytes)

/-! ## HAMT storage (contract-level model) and SolidityAccount::update -/

/-- Modelled from the spec: `hamt.rs` is not among the available sources.  The
byte arena is abstracted by its logical key→value content; `open(arena, reset)`
fails when the arena is smaller than the fixed control prefix (taken as the
32-bit control word, 4 bytes); value zero is stored, not treated as absent. -/
def Hamt.CTRL_SIZE : Nat := 4

/-- Modelled from the spec: a leaf node is tag + 32-byte key + 32-byte value
(spec §3), 65 bytes. -/
def Hamt.LEAF_SIZE : Nat := 65

/-- Modelled from the spec: insert on the logical HAMT content, with the
arena's byte length made explicit.  Replacing an existing key's value never
allocates and so never fails (spec §4.2); inserting a fresh key fails with
`OutOfStorage` when the arena cannot host it — the spec fixes the leaf layout
bit-exactly but not the branch allocator, so the model fails when the arena
lacks room for the control word plus one 65-byte leaf per live key, a
necessary condition for the byte-exact allocator of the absent `hamt.rs`. -/
def hamtInsert (arena_len : Nat) (st : List (Nat × Nat)) (k v : Nat) :
    Except ProgramError (List (Nat × Nat)) :=
  if st.any (fun p => p.1 = k) then
    .ok (st.map (fun p => if p.1 = k then (k, v) else p))
  else if arena_len < Hamt.CTRL_SIZE + (st.length + 1) * Hamt.LEAF_SIZE then
    .error .outOfStorage
  else
    .ok (st ++ [(k, v)])

/-- Modelled from the spec: a sequence of in-place HAMT inserts; the first
failure stops the sequence, leaving the earlier inserts applied (the source
mutates the arena in place and propagates the error with `?`). -/
def hamtInsertAll (arena_len : Nat) :
    List (Nat × Nat) → List (Nat × Nat) → List (Nat × Nat) × Option ProgramError
  | st, [] => (st, none)
  | st, (k, v) :: rest =>
    match hamtInsert arena_len st k v with
    | .ok st' => hamtInsertAll arena_len st' rest
    | .error e => (st, some e)

/-- The mutable state touched by `SolidityAccount::update`: the in-memory
header (`self.account_data`), the account byte buffer (`account_info.data`),
the lamport balance (`account_info.lamports`), and — abstracting the HAMT byte
arena — the logical storage content of the tail. -/
structure UpdState where
  account_data : AccountData
  data : List Nat
  lamports : Nat
  storage : List (Nat × Nat)
deriving DecidableEq, Repr

/-- The pack-and-storage tail of `SolidityAccount::update`
(`src/evm_loader/program/src/solidity_account.rs` lines 146-165): pack the
header into the buffer, then, when `reset_storage` or the iterator is
non-empty, require `code_size ≠ 0` (else `UninitializedAccount`), open the HAMT
on the tail (`reset_storage` clears it) and insert every pair. -/
def updateRest (s : UpdState) (items : List (Nat × Nat)) (reset_storage : Bool) :
    UpdState × Option RtError :=
  match AccountData.pack s.account_data s.data with
  | .error e => (s, some (.prog e))
  | .ok data' =>
    let s := { s with data := data' }
    if reset_storage || items ≠ [] then
      let code_size := s.account_data.code_size
      if code_size = 0 then (s, some (.prog .uninitializedAccount))
      else if s.data.length < AccountData.SIZE + code_size then (s, some .panic)
      else
        let arena_len := s.data.length - (AccountData.SIZE + code_size)
        if arena_len < Hamt.CTRL_SIZE then
          (s, some (.prog .accountDataTooSmall))
        else
          let base := if reset_storage then [] else s.storage
          match hamtInsertAll arena_len base items with
          | (st', none) => ({ s with storage := st' }, none)
          | (st', some e) => ({ s with storage := st' }, some (.prog e))
    else
      (s, none)

/-- `SolidityAccount::update` from
`src/evm_loader/program/src/solidity_account.rs` lines 114-166.  Mutation
order, as in the source: (a) lamports, (b) `trx_count := nonce.as_u64()` —
`U256::as_u64` is a checked cast that panics on values ≥ 2^64 (the truncating
cast would be `low_u64`), so the model panics there and stores the exact value
otherwise, (c) if `new_code.is_some()`: fail with `AccountAlreadyInitialized`
when `code_size ≠ 0`, else set `code_size` and copy the code to
`data[SIZE..SIZE+len]` (a short buffer panics), (d) pack the header, (e) apply
the storage items.  The first component of the result is the state at the
point of return, so partial mutations before an error or panic persist. -/
def SolidityAccount.update (s : UpdState) (_solidity_address : List Nat)
    (nonce : Nat) (lamports : Nat) (code : Option (List Nat))
    (storage_items : List (Nat × Nat)) (reset_storage : Bool) :
    UpdState × Option RtError :=
  let s := { s with lamports := lamports }
  if 2 ^ 64 ≤ nonce then (s, some .panic)
  else
    let s := { s with account_data := { s.account_data with trx_count := nonce } }
    match code with
    | some c =>
      if s.account_data.code_size ≠ 0 then
        (s, some (.prog .accountAlreadyInitialized))
      else if 2 ^ 32 ≤ c.length then
        (s, some (.prog .accountDataTooSmall))
      else
        let s := { s with account_data := { s.account_data with code_size := c.length } }
        if s.data.length < AccountData.SIZE + c.length then (s, some .panic)
        else
          let s := { s with data := writeRange s.data AccountData.SIZE c }
          updateRest s storage_items reset_storage
    | none => updateRest s storage_items reset_storage

/-! ## Claim C10: the Write host instruction -/

/-- Claim C10: `do_write` interprets its offset relative to the end of the
65-byte `AccountLayout` header: the bytes land at positions
`[offset + 65, offset + 65 + len)`, every position below `offset + 65` (in
particular the whole header) is unchanged, positions at or beyond
`offset + 65 + len` are unchanged, and when the account data is shorter than
`offset + 65 + len` the instruction fails with `AccountDataTooSmall` without
producing an output buffer (the source returns before any write). -/
theorem do_write_offset_and_bounds (data : List Nat) (offset : Nat) (bytes : List Nat) :
    (data.length < offset + AccountData.SIZE + bytes.length →
      do_write data offset bytes = .error .accountDataTooSmall)
  ∧ (offset + AccountData.SIZE + bytes.length ≤ data.length →
      do_write data offset bytes = .ok (writeRange data (offset + AccountData.SIZE) bytes)
      ∧ (writeRange data (offset + AccountData.SIZE) bytes).length = data.length
      ∧ (∀ i, i < offset + AccountData.SIZE →
          (writeRange data (offset + AccountData.SIZE) bytes).getD i 0 = data.getD i 0)
      ∧ (∀ j, j < bytes.length →
          (writeRange data (offset + AccountData.SIZE) bytes).getD
              (offset + AccountData.SIZE + j) 0 = bytes.getD j 0)
      ∧ (∀ i, offset + AccountData.SIZE + bytes.length ≤ i →
          (writeRange data (offset + AccountData.SIZE) bytes).getD i 0 = data.getD i 0)) := by
  constructor
  · intro h
    simp [do_write, h]
  · intro h
    refine ⟨by simp [do_write, Nat.not_lt.mpr h], writeRange_length _ _ _, ?_, ?_, ?_⟩
    · intro i hi
      rw [writeRange_getD]
      have hlt : i < data.length := by omega
      simp only [hlt, if_true]
      rw [if_neg]
      omega
    · intro j hj
      rw [writeRange_getD]
      have hlt : offset + AccountData.SIZE + j < data.length := by omega
      simp only [hlt, if_true]
      rw [if_pos (by omega)]
      congr 1
      omega
    · intro i hi
      rw [writeRange_getD]
      by_cases hlt : i < data.length
      · simp only [hlt, if_true]
        rw [if_neg]
        omega
      · have hnone : data[i]? = none := List.getElem?_eq_none (by omega)
        simp [hlt, List.getD_eq_getElem?_getD, hnone]

/-- Witness for claim C10 at a concrete buffer: a 70-byte buffer, offset 2 and
three payload bytes; the bounds check passes and the copy lands at 67..70. -/
theorem do_write_offset_and_bounds_witness :
    do_write (List.replicate 70 9) 2 [1, 2, 3]
        = .ok (writeRange (List.replicate 70 9) (2 + AccountData.SIZE) [1, 2, 3])
    ∧ (writeRange (List.replicate 70 9) (2 + AccountData.SIZE) [1, 2, 3]).getD 64 0
        = (List.replicate 70 9).getD 64 0
    ∧ (writeRange (List.replicate 70 9) (2 + AccountData.SIZE) [1, 2, 3]).getD (2 + AccountData.SIZE + 1) 0
        = [1, 2, 3].getD 1 0 := by
  have h := (do_write_offset_and_bounds (List.replicate 70 9) 2 [1, 2, 3]).2 (by decide)
  exact ⟨h.1, h.2.2.1 64 (by decide), h.2.2.2.1 1 (by decide)⟩

/-! ## Claim C7: code is written at most once -/

/-- Claim C7: for an account whose header has `code_size ≠ 0`, calling
`SolidityAccount::update` with `new_code = Some(bytes)` fails with
`AccountAlreadyInitialized`, leaving the byte buffer — and so the existing
code — untouched (only the lamport write and the in-memory `trx_count`
assignment, which precede the check in the source, have happened); the
hypothesis `nonce < 2 ^ 64` excludes the `U256::as_u64` overflow panic, which
in the source fires before the `code_size` check.  And whenever such an update
returns without error, the account's `code_size` was 0 beforehand, so
`code_size` is set at most once per account lifetime. -/
theorem solidity_account_update_code_write_once (s : UpdState) (sa : List Nat)
    (nonce lamports : Nat) (c : List Nat) (items : List (Nat × Nat)) (reset : Bool) :
    (nonce < 2 ^ 64 → s.account_data.code_size ≠ 0 →
      SolidityAccount.update s sa nonce lamports (some c) items reset
        = ({ s with
              lamports := lamports
              account_data := { s.account_data with trx_count := nonce } },
           some (.prog .accountAlreadyInitialized)))
  ∧ (∀ s', SolidityAccount.update s sa nonce lamports (some c) items reset = (s', none) →
      s.account_data.code_size = 0) := by
  constructor
  · intro hn h
    simp [SolidityAccount.update, Nat.not_le.mpr hn, h]
    omega
  · intro s' hupd
    by_contra h
    simp only [SolidityAccount.update] at hupd
    split at hupd
    · simp at hupd
    · simp [h] at hupd

/-- Witness for claim C7: an account with `code_size = 3` rejects a second code
write and its buffer is returned unchanged. -/
theorem solidity_account_update_code_write_once_witness :
    SolidityAccount.update
        { account_data := { ether := List.replicate 20 0, nonce := 1, trx_count := 4, signer := List.replicate 32 0, code_size := 3 }
          data := List.replicate 70 7
          lamports := 100
          storage := [] }
        (List.replicate 20 0) 5 200 (some [9, 9]) [] false
      = ({ account_data := { ether := List.replicate 20 0, nonce := 1, trx_count := 5, signer := List.replicate 32 0, code_size := 3 }
           data := List.replicate 70 7
           lamports := 200
           storage := [] },
         some (.prog .accountAlreadyInitialized)) := by
  exact (solidity_account_update_code_write_once
    { account_data := { ether := List.replicate 20 0, nonce := 1, trx_count := 4, signer := List.replicate 32 0, code_size := 3 }
      data := List.replicate 70 7
      lamports := 100
      storage := [] }
    (List.replicate 20 0) 5 200 [9, 9] [] false).1 (by decide) (by decide)

/-! ## SolanaBackend -/

/-- One entry of `SolanaBackend::accounts`: a `SolidityAccount` view with its
EVM address (`get_address()`), its host pubkey (`accountInfo.key`) and the
mutable state `update` acts on. -/
structure SolAccount where
  address : List Nat
  key : List Nat
  upd : UpdState
deriving DecidableEq, Repr

/-- `SolanaBackend` from `src/evm_loader/program/src/solana_backend.rs`
lines 38-41: the account views and the sorted alias table
`(H160, position)`. -/
structure SolanaBackend where
  accounts : List SolAccount
  aliases : List (List Nat × Nat)
deriving DecidableEq, Repr

/-- `SolanaBackend::is_solana_address` (`solana_backend.rs` lines 102-104).
The source compares `code_address.to_string()` with the literal string
`"0xff00…0000"`.  `H160`'s `Display` implementation prints `0x`, the first two
bytes, an ellipsis, and the last two bytes, so the comparison succeeds exactly
when the address starts with bytes `ff 00` and ends with bytes `00 00`. -/
def is_solana_address (a : List Nat) : Bool :=
  (a.take 2 == [0xff, 0x00]) && (a.drop 18 == [0x00, 0x00])

/-- The sentinel address `0xff00000000000000000000000000000000000000` the spec
writes as `0xff00…0000`. -/
def sentinelAddress : List Nat := 0xff :: List.replicate 19 0

/-- `SolanaBackend::find_account` (`solana_backend.rs` lines 78-90): a binary
search of the alias table sorted by address, embedded as a first-match lookup
(the table is kept sorted by construction, where the two agree). -/
def SolanaBackend.find_account (b : SolanaBackend) (address : List Nat) : Option Nat :=
  (b.aliases.find? (fun v => v.1 == address)).map (fun v => v.2)

/-- One element of the `Apply` effect list consumed by `SolanaBackend::apply`
(`evm::backend::Apply`): `Modify` carries the basic fields, optional code, the
storage pairs and the reset flag; `Delete` carries only the address. -/
inductive ApplyEffect where
  | modify (address : List Nat) (basicNonce : Nat) (basicBalance : Nat)
      (code : Option (List Nat)) (storage : List (Nat × Nat)) (reset_storage : Bool)
  | delete (address : List Nat)
deriving DecidableEq, Repr

/-- `SolanaBackend::apply` (`solana_backend.rs` lines 106-128): for each
`Modify`, skip it when `is_solana_address` holds, otherwise resolve the view
(`NotEnoughAccountKeys` when absent) and run `update` with `basic.nonce`,
`basic.balance.as_u64()` — a checked cast that panics when the balance does
not fit in 64 bits, evaluated at the call site before `update` runs — the
code, storage and reset flag, propagating the first error; `Delete` does
nothing.  Indexing `accounts[pos]` out of range is a Rust panic. -/
def SolanaBackend.apply (b : SolanaBackend) : List ApplyEffect → Except RtError SolanaBackend
  | [] => .ok b
  | .modify address basicNonce basicBalance code storage reset_storage :: rest =>
    if is_solana_address address then
      SolanaBackend.apply b rest
    else
      match b.find_account address with
      | none => .error (.prog .notEnoughAccountKeys)
      | some pos =>
        match b.accounts[pos]? with
        | none => .error .panic
        | some acc =>
          if 2 ^ 64 ≤ basicBalance then .error .panic
          else
            match SolidityAccount.update acc.upd address basicNonce basicBalance
                code storage reset_storage with
            | (u', none) =>
              SolanaBackend.apply { b with accounts := b.accounts.set pos { acc with upd := u' } }
                rest
            | (_, some e) => .error e
  | .delete _ :: rest => SolanaBackend.apply b rest

/-- The block-context and transaction-context oracles of the on-chain
`Backend` impl (`solana_backend.rs` lines 131-140); every one of them is a
constant. -/
def SolanaBackend.gas_price (_ : SolanaBackend) : Nat := 0

/-- `origin` of the on-chain Backend (`solana_backend.rs` line 133):
`H160::default()`, the zero address. -/
def SolanaBackend.origin (_ : SolanaBackend) : List Nat := List.replicate 20 0

/-- `block_hash` of the on-chain Backend (`solana_backend.rs` line 134):
`H256::default()`. -/
def SolanaBackend.block_hash (_ : SolanaBackend) (_number : Nat) : List Nat :=
  List.replicate 32 0

/-- `block_number` of the on-chain Backend (`solana_backend.rs` line 135):
`U256::zero()`. -/
def SolanaBackend.block_number (_ : SolanaBackend) : Nat := 0

/-- `block_coinbase` of the on-chain Backend (`solana_backend.rs` line 136):
`H160::default()`. -/
def SolanaBackend.block_coinbase (_ : SolanaBackend) : List Nat := List.replicate 20 0

/-- `block_timestamp` of the on-chain Backend (`solana_backend.rs` line 137):
`U256::zero()`. -/
def SolanaBackend.block_timestamp (_ : SolanaBackend) : Nat := 0

/-- `block_difficulty` of the on-chain Backend (`solana_backend.rs` line 138). -/
def SolanaBackend.block_difficulty (_ : SolanaBackend) : Nat := 0

/-- `block_gas_limit` of the on-chain Backend (`solana_backend.rs` line 139). -/
def SolanaBackend.block_gas_limit (_ : SolanaBackend) : Nat := 0

/-- `chain_id` of the on-chain Backend (`solana_backend.rs` line 140). -/
def SolanaBackend.chain_id (_ : SolanaBackend) : Nat := 0

/-! ## Emulator account storage -/

/-- `EmulatorAccountStorage` from
`src/evm_loader/emulator/src/account_storage.rs` lines 53-63, restricted to
the fields the block-context and origin oracles read. -/
structure EmulatorAccountStorage where
  program_id : List Nat
  contract_id : List Nat
  caller_id : List Nat
  base_account : List Nat
  block_number : Nat
  block_timestamp : Int
deriving DecidableEq, Repr

/-- `EmulatorAccountStorage::new` (`account_storage.rs` lines 66-106): the
slot and block time are fetched from the RPC client at construction
(`get_slot_result` / `get_block_time_result`, `none` modelling an RPC error)
and fall back to 0 on error. -/
def EmulatorAccountStorage.new (base_account program_id contract_id caller_id : List Nat)
    (get_slot_result : Option Nat) (get_block_time_result : Option Int) :
    EmulatorAccountStorage :=
  { program_id := program_id
    contract_id := contract_id
    caller_id := caller_id
    base_account := base_account
    block_number := get_slot_result.getD 0
    block_timestamp := get_block_time_result.getD 0 }

/-- `origin` of the emulator storage (`account_storage.rs` line 248): it
returns `self.contract_id`. -/
def EmulatorAccountStorage.origin (s : EmulatorAccountStorage) : List Nat :=
  s.contract_id

/-! ## Claim C9: apply skips the sentinel address -/

/-- Claim C9: a `Modify` effect whose address is the sentinel
`0xff00…0000` is silently skipped by `SolanaBackend::apply`: the result on
`Modify(sentinel) :: rest` equals the result on `rest` for every backend —
in particular no account view is resolved, no `NotEnoughAccountKeys` arises
even when no view exists for that address, and the remaining effects are
processed. -/
theorem apply_skips_solana_address_modify (b : SolanaBackend) (basicNonce basicBalance : Nat)
    (code : Option (List Nat)) (storage : List (Nat × Nat)) (reset_storage : Bool)
    (rest : List ApplyEffect) :
    SolanaBackend.apply b (.modify sentinelAddress basicNonce basicBalance code storage
        reset_storage :: rest)
      = SolanaBackend.apply b rest := by
  have h : is_solana_address sentinelAddress = true := by decide
  simp [SolanaBackend.apply, h]

/-! ## Claims C5 and C6: block context and origin -/

/-- Modelled from the spec: the claimed behaviour of the on-chain
`block_number` — return the host slot captured at Backend construction.  Used
only to compare the spec's words against the code. -/
def specOnChainBlockNumber (host_slot : Nat) : Nat := host_slot

/-- A concrete on-chain backend with no accounts. -/
def backendEx : SolanaBackend := { accounts := [], aliases := [] }

/-- Counterexample to claim C5: the on-chain Backend's `block_number` is the
constant zero, so for a backend constructed while the host slot is 7 it does
not return the captured slot. -/
theorem solana_backend_block_number_not_seeded :
    SolanaBackend.block_number backendEx = 0
    ∧ SolanaBackend.block_number backendEx ≠ specOnChainBlockNumber 7 := by
  exact ⟨rfl, by decide⟩

/-- Claim C5 (amended): every block-context oracle of the on-chain Backend is
a constant default — `block_number`, `block_timestamp`, `chain_id`,
`block_difficulty`, `block_gas_limit` and `gas_price` are zero, and
`block_coinbase`/`block_hash` are the zero address / zero hash; it is the
emulator storage whose `block_number` and `block_timestamp` are seeded from
the host's slot and clock captured at construction. -/
theorem backend_block_context_defaults :
    (∀ b : SolanaBackend, b.block_number = 0 ∧ b.block_timestamp = 0 ∧ b.chain_id = 0
      ∧ b.block_difficulty = 0 ∧ b.block_gas_limit = 0 ∧ b.gas_price = 0
      ∧ b.block_coinbase = List.replicate 20 0
      ∧ ∀ n, b.block_hash n = List.replicate 32 0)
  ∧ (∀ base pid cid cal slot t,
      (EmulatorAccountStorage.new base pid cid cal (some slot) (some t)).block_number = slot
      ∧ (EmulatorAccountStorage.new base pid cid cal (some slot) (some t)).block_timestamp
          = t) := by
  exact ⟨fun b => ⟨rfl, rfl, rfl, rfl, rfl, rfl, rfl, fun n => rfl⟩,
    fun base pid cid cal slot t => ⟨rfl, rfl⟩⟩

/-- A concrete emulator storage whose contract and caller addresses differ. -/
def emulatorEx : EmulatorAccountStorage :=
  EmulatorAccountStorage.new (List.replicate 32 0) (List.replicate 32 0)
    (1 :: List.replicate 19 0) (2 :: List.replicate 19 0) (some 7) (some 9)

/-- Counterexample to claim C6: the emulator Backend's `origin()` returns the
`contract_id` captured at construction, not the outer caller's address — on a
storage whose contract and caller ids differ, `origin` disagrees with the
caller id. -/
theorem emulator_origin_not_caller :
    EmulatorAccountStorage.origin emulatorEx = emulatorEx.contract_id
    ∧ EmulatorAccountStorage.origin emulatorEx ≠ emulatorEx.caller_id := by
  exact ⟨rfl, by decide⟩

/-- Claim C6 (amended): the on-chain Backend's `origin()` is the constant zero
address (`H160::default()`); the emulator storage's `origin()` returns the
`contract_id` captured at construction (not the `caller_id`). -/
theorem backend_origin_values :
    (∀ b : SolanaBackend, b.origin = List.replicate 20 0)
  ∧ (∀ s : EmulatorAccountStorage, s.origin = s.contract_id)
  ∧ (∀ base pid cid cal sr tr,
      (EmulatorAccountStorage.new base pid cid cal sr tr).contract_id = cid
      ∧ (EmulatorAccountStorage.new base pid cid cal sr tr).caller_id = cal) := by
  exact ⟨fun b => rfl, fun s => rfl, fun base pid cid cal sr tr => ⟨rfl, rfl⟩⟩

/-! ## call_inner: the CPI escape hatch -/

/-- `solana_sdk::instruction::AccountMeta`. -/
structure AccountMeta where
  pubkey : List Nat
  is_signer : Bool
  is_writable : Bool
deriving DecidableEq, Repr

/-- `solana_sdk::instruction::Instruction` as assembled by `call_inner`. -/
structure Instruction where
  program_id : List Nat
  accounts : List AccountMeta
  data : List Nat
deriving DecidableEq, Repr

/-- The observable outcome of `SolanaBackend::call_inner`: a Rust panic during
parsing, `None` (the interpreter handles the call normally), or an
interception `Some(Capture::Exit(reason, return_data))`; `cpi` records the
cross-program instruction passed to `invoke`, `none` when no CPI was issued. -/
inductive CallInnerResult where
  | panicked
  | passthrough
  | intercepted (reason : ExitReason) (return_data : List Nat) (cpi : Option Instruction)
deriving DecidableEq, Repr

/-- Outcome of the account-list loop of `call_inner`. -/
inductive ParseAccountsOutcome where
  | panicked
  | invalidRange
  | done (metas : List AccountMeta) (sl : List Nat)
deriving DecidableEq, Repr

/-- The account-list loop of `call_inner` (`solana_backend.rs` lines 226-262),
embedded faithfully to the source's slice handling: the loop-local binding
`let (needs_translate, rest) = rest.split_at(1)` reads the *outer* `rest`
slice — the bytes right after the account count (`rest3` here) — in every
iteration, because the shadowing binding dies at the end of each iteration;
and the key bytes `acc` are split off `sl`, which starts at the entry's own
`needs_translate` byte.  An unknown translated address returns the
`InvalidRange` interception; short slices panic. -/
def parseAccountsLoop (b : SolanaBackend) (rest3 : List Nat) :
    Nat → List Nat → List AccountMeta → ParseAccountsOutcome
  | 0, sl, metas => .done metas sl
  | Nat.succ n, sl, metas =>
    match splitAt? 1 rest3 with
    | none => .panicked
    | some (ntBytes, _) =>
      let needs_translate := ntBytes.getD 0 0 != 0
      let acc_len := if needs_translate then 20 else 32
      match splitAt? acc_len sl with
      | none => .panicked
      | some (acc, r1) =>
        match splitAt? 1 r1 with
        | none => .panicked
        | some (isSignerB, r2) =>
          match splitAt? 1 r2 with
          | none => .panicked
          | some (isWritableB, r3) =>
            let is_signer := isSignerB.getD 0 0 != 0
            let is_writable := isWritableB.getD 0 0 != 0
            if needs_translate then
              match b.find_account acc with
              | none => .invalidRange
              | some pos =>
                match b.accounts[pos]? with
                | none => .panicked
                | some a =>
                  parseAccountsLoop b rest3 n r3 (metas ++
                    [{ pubkey := a.key, is_signer := is_signer, is_writable := is_writable }])
            else
              parseAccountsLoop b rest3 n r3 (metas ++
                [{ pubkey := acc, is_signer := is_signer, is_writable := is_writable }])

/-- `SolanaBackend::call_inner` (`solana_backend.rs` lines 196-283).  A
non-matching `code_address` (per `is_solana_address`) returns `None`
(`passthrough`).  Otherwise the input is split as: u16-BE program-id length,
program id (`Pubkey::new` panics unless 32 bytes), u16-BE account count, the
account loop above, u16-BE data length, data; then the host `invoke` is issued
and `Succeed(Stopped)` with empty return data is produced.  Transfer, gas and
static-flag arguments are ignored by the source and omitted here. -/
def SolanaBackend.call_inner (b : SolanaBackend) (code_address : List Nat)
    (input : List Nat) : CallInnerResult :=
  if !(is_solana_address code_address) then .passthrough
  else
    match splitAt? 2 input with
    | none => .panicked
    | some (pidLenBytes, rest1) =>
      let program_id_len := be16 pidLenBytes
      match splitAt? program_id_len rest1 with
      | none => .panicked
      | some (program_id_str, rest2) =>
        if program_id_str.length ≠ 32 then .panicked
        else
          match splitAt? 2 rest2 with
          | none => .panicked
          | some (accsLenBytes, rest3) =>
            let accs_len := be16 accsLenBytes
            match parseAccountsLoop b rest3 accs_len rest3 [] with
            | .panicked => .panicked
            | .invalidRange => .intercepted (.error .invalidRange) [] none
            | .done metas sl =>
              match splitAt? 2 sl with
              | none => .panicked
              | some (dataLenBytes, rest4) =>
                let data_len := be16 dataLenBytes
                match splitAt? data_len rest4 with
                | none => .panicked
                | some (data, _) =>
                  .intercepted (.succeed .stopped) []
                    (some { program_id := program_id_str, accounts := metas, data := data })

/-! ## Claim C3: the CPI escape wire format -/

/-- A backend holding exactly one view, for the E-addr `0xaaaa…aaaa`. -/
def backendC3 : SolanaBackend :=
  { accounts := [{ address := List.replicate 20 0xaa
                   key := List.replicate 32 5
                   upd := { account_data := { ether := List.replicate 20 0xaa, nonce := 0, trx_count := 0, signer := List.replicate 32 0, code_size := 0 }
                            data := []
                            lamports := 0
                            storage := [] } }]
    aliases := [(List.replicate 20 0xaa, 0)] }

/-- A payload that follows the documented CPI wire format exactly: a 32-byte
program id, one account entry with `needs_translate = 1` whose E-addr is the
known `0xaaaa…aaaa`, signer and writable flags set, and empty data. -/
def payloadC3 : List Nat :=
  [0, 32] ++ List.replicate 32 3 ++ [0, 1]
    ++ [1] ++ List.replicate 20 0xaa ++ [1, 1] ++ [0, 0]

/-- Claim C3 fails on the code: on a well-formed payload whose single
translated E-addr has a view in the backend, `call_inner` returns
`Error(InvalidRange)` and issues no CPI, because the account loop takes the
20 key bytes starting at the entry's `needs_translate` byte and therefore
looks up the shifted address `0x01aaaa…aa` instead of the payload's E-addr
(which is present, as the second conjunct shows). -/
theorem call_inner_misparses_known_account :
    SolanaBackend.call_inner backendC3 sentinelAddress payloadC3
        = .intercepted (.error .invalidRange) [] none
    ∧ backendC3.find_account (List.replicate 20 0xaa) = some 0 := by
  exact ⟨by decide, by decide⟩

/-! ## Executor state (sub-state stack) -/

/-- Ghost trace events recording which state operations the embedded code
performs, used to state intensional claims (which of
`exit_commit`/`exit_revert`/`exit_discard` ran, whether return values were
marshalled into the parent frame). -/
inductive MEvent where
  | enter
  | exitCommit
  | exitRevert
  | exitDiscard
  | touch (a : List Nat)
  | incNonce (a : List Nat)
  | setCode (a : List Nat) (code : List Nat)
  | marshalReturn
  | marshalCreate
deriving DecidableEq, Repr

/-- Modelled from the spec: `executor_state.rs` is not among the available
sources.  Spec §9: staged effects form a push-down stack mirroring the frame
stack; `commit`/`revert`/`discard` act on the top entry; on commit the top
entry is merged into its parent.  A sub-state entry is abstracted as a list of
opaque effect tokens.  `nonce` and `codes` model `basic().nonce` /
`code()` lookups; `metadata_depth` models `metadata().depth()`; `events` is
the ghost trace. -/
structure ExecutorState where
  substates : List (List Nat)
  nonce : List Nat → Nat
  codes : List Nat → List Nat
  metadata_depth : Option Nat
  events : List MEvent

/-- Modelled from the spec: `enter` pushes a fresh sub-state entry (and one
more call-depth level). -/
def ExecutorState.enter (s : ExecutorState) : ExecutorState :=
  { s with
      substates := [] :: s.substates
      metadata_depth := s.metadata_depth.map (· + 1)
      events := s.events ++ [.enter] }

/-- Modelled from the spec: `exit_commit` merges the top sub-state entry into
its parent. -/
def ExecutorState.exit_commit (s : ExecutorState) : ExecutorState :=
  { s with
      substates := match s.substates with
        | a :: b :: t => (a ++ b) :: t
        | l => l
      events := s.events ++ [.exitCommit] }

/-- Modelled from the spec: `exit_revert` drops the top sub-state entry,
discarding the child's staged effects. -/
def ExecutorState.exit_revert (s : ExecutorState) : ExecutorState :=
  { s with substates := s.substates.tail, events := s.events ++ [.exitRevert] }

/-- Modelled from the spec: `exit_discard` drops the top sub-state entry. -/
def ExecutorState.exit_discard (s : ExecutorState) : ExecutorState :=
  { s with substates := s.substates.tail, events := s.events ++ [.exitDiscard] }

/-- Modelled from the spec: `touch` marks an address as accessed. -/
def ExecutorState.touch (s : ExecutorState) (a : List Nat) : ExecutorState :=
  { s with events := s.events ++ [.touch a] }

/-- Modelled from the spec: `inc_nonce` bumps the account nonce. -/
def ExecutorState.inc_nonce (s : ExecutorState) (a : List Nat) : ExecutorState :=
  { s with
      nonce := fun x => if x = a then s.nonce a + 1 else s.nonce x
      events := s.events ++ [.incNonce a] }

/-- Modelled from the spec: `set_code` installs the returned bytes as the
created contract's code. -/
def ExecutorState.set_code (s : ExecutorState) (a : List Nat) (code : List Nat) :
    ExecutorState :=
  { s with
      codes := fun x => if x = a then code else s.codes x
      events := s.events ++ [.setCode a code] }

/-- Ghost marker for `evm_runtime::save_return_value` (writing a child CALL's
return bytes into the parent frame's memory). -/
def ExecutorState.marshal_return_ev (s : ExecutorState) : ExecutorState :=
  { s with events := s.events ++ [.marshalReturn] }

/-- Ghost marker for `evm_runtime::save_created_address` (pushing the created
address onto the parent frame's stack). -/
def ExecutorState.marshal_create_ev (s : ExecutorState) : ExecutorState :=
  { s with events := s.events ++ [.marshalCreate] }

/-! ## Executor::create -/

/-- The fields of `evm::Config` read by the embedded code
(`Machine::new` uses `evm::Config::default()`). -/
structure Config where
  call_stack_limit : Nat
  create_contract_limit : Option Nat
  empty_considered_exists : Bool
deriving DecidableEq, Repr

/-- `evm::CreateScheme`. -/
inductive CreateScheme where
  | create2 (caller : List Nat) (code_hash : List Nat) (salt : List Nat)
  | legacy (caller : List Nat)
  | fixed (address : List Nat)
deriving DecidableEq, Repr

/-- `evm::Context`: address, caller and apparent value of a frame. -/
structure Context where
  address : List Nat
  caller : List Nat
  apparent_value : Nat
deriving DecidableEq, Repr

/-- The `Capture` returned by `Executor::create`: either an immediate exit
`(ExitReason, Option<H160>, Vec<u8>)` or a `CreateInterrupt` trap. -/
inductive CreateCapture where
  | exit (r : ExitReason) (address : Option (List Nat)) (ret : List Nat)
  | trap (init_code : List Nat) (context : Context) (address : List Nat)
deriving DecidableEq, Repr

/-- The CREATE2 address computation of `Executor::create`
(`src/evm_loader/program/src/executor.rs` lines 179-186):
`keccak256(0xff ‖ caller ‖ salt ‖ code_hash)` truncated to its last 20 bytes
(`H256 → H160`).  Keccak-256 itself is an external primitive and is passed in
as `kec`. -/
def create2Address (kec : List Nat → List Nat) (caller code_hash salt : List Nat) :
    List Nat :=
  (kec ([0xff] ++ caller ++ salt ++ code_hash)).drop 12

/-- The body of `Executor::create` after the depth check
(`executor.rs` lines 176-222): compute the scheme's address (`rlp2` stands for
the external RLP encoding of `(caller, nonce)` in the `Legacy` arm), increment
the caller's nonce, and return a `CreateInterrupt` trap.  The collision checks
of the spec (existing code, non-zero nonce → `CreateCollision`) are commented
out in the source and therefore absent here. -/
def Executor.createCont (kec : List Nat → List Nat) (rlp2 : List Nat → Nat → List Nat)
    (st : ExecutorState) (caller : List Nat) (scheme : CreateScheme) (value : Nat)
    (init_code : List Nat) : ExecutorState × CreateCapture :=
  let address :=
    match scheme with
    | .create2 c2caller code_hash salt => create2Address kec c2caller code_hash salt
    | .legacy lcaller => (kec (rlp2 lcaller (st.nonce lcaller))).drop 12
    | .fixed a => a
  let st' := st.inc_nonce caller
  (st', .trap init_code { address := address, caller := caller, apparent_value := value }
    address)

/-- `Executor::create` (`executor.rs` lines 157-223): when
`metadata().depth()` is `Some(depth)` and `depth + 1` exceeds
`call_stack_limit`, exit with `CallTooDeep`; otherwise proceed as in
`Executor.createCont`. -/
def Executor.create (kec : List Nat → List Nat) (rlp2 : List Nat → Nat → List Nat)
    (st : ExecutorState) (config : Config) (caller : List Nat) (scheme : CreateScheme)
    (value : Nat) (init_code : List Nat) : ExecutorState × CreateCapture :=
  match st.metadata_depth with
  | some depth =>
    if config.call_stack_limit < depth + 1 then
      (st, .exit (.error .callTooDeep) none [])
    else
      Executor.createCont kec rlp2 st caller scheme value init_code
  | none => Executor.createCont kec rlp2 st caller scheme value init_code

/-! ## The Machine -/

/-- `RuntimeReason` (`executor.rs` lines 277-281): why a frame was pushed —
`Call` (pop marshals return data into the parent's memory) or
`Create(address)` (pop installs the returned bytes as the new contract's
code). -/
inductive RuntimeReason where
  | call
  | create (address : List Nat)
deriving DecidableEq, Repr

/-- One entry of `Machine::runtime`: an EVM `Runtime` (represented by the
immutable code and input it was entered with and its `Context`; program
counter, operand stack and memory live inside the external interpreter) paired
with its optional `RuntimeReason`. -/
structure Frame where
  code : List Nat
  input : List Nat
  context : Context
  reason : Option RuntimeReason
deriving DecidableEq, Repr

/-- The outcome of one invocation of the external interpreter primitive
`evm::Runtime::step` on the top frame, as seen by `Machine::step`: `Ok(())`,
an `Exit(reason)` (paired with the frame's return bytes,
`runtime.machine().return_value()`), a CALL or CREATE interrupt, or the
catch-all trap arm of the source's `match`. -/
inductive StepOutcome where
  | ok
  | exit (r : ExitReason) (retdata : List Nat)
  | trapCall (code_address : List Nat) (input : List Nat) (context : Context)
  | trapCreate (init_code : List Nat) (context : Context) (address : List Nat)
  | trapOther

/-- `Machine` (`executor.rs` lines 283-286): the frame stack (top frame at the
head here, where the source keeps it at the end of its `Vec`), the executor
state, the config taken from `evm::Config::default()`, and the abstraction of
the external interpreter: `oracle k` is the outcome of the `k`-th invocation
of the step primitive, and `pos` counts how many invocations have happened. -/
structure Machine where
  frames : List Frame
  state : ExecutorState
  config : Config
  oracle : Nat → StepOutcome
  pos : Nat

/-- `Machine::step` (`executor.rs` lines 345-474).  With an empty frame stack
nothing happens and `Ok(())` is returned.  Otherwise the top frame advances by
one interpreter step and the outcome is routed: `Ok` → `Ok(())`;
`Exit(Succeed)` → commit; if this was the only frame return `Err(reason)`,
else pop the frame and, per its `RuntimeReason`, marshal the return value
(CALL) or check `create_contract_limit`, `set_code` and marshal the created
address (CREATE); `Exit(Error)`/`Exit(Fatal)` → discard the sub-state and
return `Err(reason)`; `Exit(Revert)` → revert the sub-state and return
`Err(reason)`; CALL/CREATE traps push a new frame over a freshly entered
sub-state; the catch-all trap arm returns `Err(Fatal(NotSupported))`. -/
def Machine.step (m : Machine) : Machine × Option ExitReason :=
  match m.frames with
  | [] => (m, none)
  | top :: rest =>
    let m1 : Machine := { m with pos := m.pos + 1 }
    match m.oracle m.pos with
    | .ok => (m1, none)
    | .exit (.succeed s) ret =>
      let st := m1.state.exit_commit
      match rest with
      | [] => ({ m1 with state := st }, some (.succeed s))
      | _ :: _ =>
        match top.reason with
        | some .call =>
          ({ m1 with frames := rest, state := st.marshal_return_ev }, none)
        | some (.create addr) =>
          match m.config.create_contract_limit with
          | some limit =>
            if limit < ret.length then
              ({ m1 with frames := rest, state := st.exit_discard },
                some (.error .createContractLimit))
            else
              ({ m1 with frames := rest, state := (st.set_code addr ret).marshal_create_ev },
                none)
          | none =>
            ({ m1 with frames := rest, state := (st.set_code addr ret).marshal_create_ev },
              none)
        | none => ({ m1 with frames := rest, state := st }, none)
    | .exit (.error e) _ =>
      ({ m1 with state := m1.state.exit_discard }, some (.error e))
    | .exit .revert _ =>
      ({ m1 with state := m1.state.exit_revert }, some .revert)
    | .exit (.fatal f) _ =>
      ({ m1 with state := m1.state.exit_discard }, some (.fatal f))
    | .trapCall code_address input context =>
      let code := m1.state.codes code_address
      let st := (m1.state.enter).touch code_address
      ({ m1 with
          state := st
          frames := { code := code, input := input, context := context,
                      reason := some .call } :: m.frames },
        none)
    | .trapCreate init_code context address =>
      ({ m1 with
          state := m1.state.enter
          frames := { code := init_code, input := [], context := context,
                      reason := some (.create address) } :: m.frames },
        none)
    | .trapOther => (m1, some (.fatal .notSupported))

/-- `Machine::execute` (`executor.rs` lines 477-483) loops `step()` until it
returns `Err` and yields that reason; the loop is embedded with explicit fuel,
`none` meaning that the loop has not returned within `fuel` iterations. -/
def Machine.executeFuel (m : Machine) : Nat → Option ExitReason
  | 0 => none
  | fuel + 1 =>
    match Machine.step m with
    | (m', none) => Machine.executeFuel m' fuel
    | (_, some r) => some r

/-- `Machine::execute_n_steps(n)` (`executor.rs` lines 485-491): call `step()`
up to `n` times, aborting on the first `Err`. -/
def Machine.execute_n_steps (m : Machine) : Nat → Machine × Option ExitReason
  | 0 => (m, none)
  | n + 1 =>
    match Machine.step m with
    | (m', none) => Machine.execute_n_steps m' n
    | (m', some r) => (m', some r)

/-- The machine after `k` unconditional applications of `step` (used to name
"the `k`-th step" in statements about `execute_n_steps`). -/
def Machine.stepIter (m : Machine) : Nat → Machine
  | 0 => m
  | k + 1 => (Machine.step (Machine.stepIter m k)).1

/-! ## Claim C1: errors bubble out of step -/

/-- Claim C1: whenever the top frame's interpreter step yields an EVM `Exit`
with reason `Error`, `Revert` or `Fatal`, `Machine::step` drops the current
sub-state (`exit_discard` for `Error`/`Fatal`, `exit_revert` for `Revert` —
visible in the ghost event appended by the respective operation) and returns
`Err` with that same reason, for every frame stack of the shape
`top :: rest` — i.e. at any depth; the resulting machine keeps its frame
stack unchanged and its state is changed only by the discard/revert, so no
parent frame catches the error and no return-value marshalling happens. -/
theorem machine_step_bubbles_errors (m : Machine) (top : Frame) (rest : List Frame)
    (hf : m.frames = top :: rest) :
    (∀ e ret, m.oracle m.pos = .exit (.error e) ret →
      Machine.step m
        = ({ m with pos := m.pos + 1, state := m.state.exit_discard }, some (.error e)))
  ∧ (∀ ret, m.oracle m.pos = .exit .revert ret →
      Machine.step m
        = ({ m with pos := m.pos + 1, state := m.state.exit_revert }, some .revert))
  ∧ (∀ f ret, m.oracle m.pos = .exit (.fatal f) ret →
      Machine.step m
        = ({ m with pos := m.pos + 1, state := m.state.exit_discard }, some (.fatal f))) := by
  refine ⟨?_, ?_, ?_⟩
  · intro e ret h
    simp [Machine.step, hf, h]
  · intro ret h
    simp [Machine.step, hf, h]
  · intro f ret h
    simp [Machine.step, hf, h]

/-- A fixed config matching the Istanbul-style defaults. -/
def configEx : Config :=
  { call_stack_limit := 1024, create_contract_limit := some 24576,
    empty_considered_exists := true }

/-- A concrete executor state with two staged sub-states. -/
def stateEx : ExecutorState :=
  { substates := [[1], [2]]
    nonce := fun _ => 0
    codes := fun _ => []
    metadata_depth := some 2
    events := [] }

/-- A concrete frame (a CALL child). -/
def frameEx : Frame :=
  { code := [0]
    input := []
    context := { address := List.replicate 20 0, caller := List.replicate 20 0,
                 apparent_value := 0 }
    reason := some .call }

/-- An interpreter oracle that exits with an `Error` on every invocation. -/
def oracleErr : Nat → StepOutcome := fun _ => .exit (.error (.other 3)) [5]

/-- A two-frame machine whose next interpreter step errors. -/
def machineErr : Machine :=
  { frames := [frameEx, frameEx], state := stateEx, config := configEx,
    oracle := oracleErr, pos := 0 }

/-- Witness for claim C1 on a machine of depth two: the error is returned
as-is and the sub-state is discarded. -/
theorem machine_step_bubbles_errors_witness :
    Machine.step machineErr
      = ({ machineErr with pos := machineErr.pos + 1, state := machineErr.state.exit_discard },
         some (.error (.other 3))) :=
  (machine_step_bubbles_errors machineErr frameEx [frameEx] rfl).1 (.other 3) [5] rfl

/-! ## Claim C8: step on an empty frame stack -/

/-- Claim C8: with an empty frame stack, `Machine::step` returns `Ok(())` and
leaves the whole machine — frame stack, executor state, and step counter —
unchanged; consequently `Machine::execute`, which loops until `step` returns
`Err`, never returns: for every fuel bound the loop is still running. -/
theorem machine_step_empty_stack (m : Machine) (hf : m.frames = []) :
    Machine.step m = (m, none) ∧ ∀ fuel, Machine.executeFuel m fuel = none := by
  have hstep : Machine.step m = (m, none) := by
    simp [Machine.step, hf]
  refine ⟨hstep, ?_⟩
  intro fuel
  induction fuel with
  | zero => rfl
  | succ n ih => simp [Machine.executeFuel, hstep, ih]

/-- A machine with an empty frame stack. -/
def machineEmpty : Machine :=
  { frames := [], state := stateEx, config := configEx, oracle := oracleErr, pos := 4 }

/-- Witness for claim C8: the empty machine is a fixed point of `step` and
`execute` makes no progress within five iterations. -/
theorem machine_step_empty_stack_witness :
    Machine.step machineEmpty = (machineEmpty, none)
    ∧ Machine.executeFuel machineEmpty 5 = none :=
  ⟨(machine_step_empty_stack machineEmpty rfl).1,
   (machine_step_empty_stack machineEmpty rfl).2 5⟩

/-! ## Claim C2: the step bound of execute_n_steps -/

theorem Machine.step_pos_le (m : Machine) : (Machine.step m).1.pos ≤ m.pos + 1 := by
  rcases hf : m.frames with _ | ⟨top, rest⟩
  · simp [Machine.step, hf]
  · rcases ho : m.oracle m.pos with _ | ⟨r, ret⟩ | ⟨a, i, c⟩ | ⟨ic, c, a⟩ | _
    · simp [Machine.step, hf, ho]
    · rcases r with s | e | _ | f
      · rcases rest with _ | ⟨p, rs⟩
        · simp [Machine.step, hf, ho]
        · rcases hr : top.reason with _ | rr
          · simp [Machine.step, hf, ho, hr]
          · rcases rr with _ | addr
            · simp [Machine.step, hf, ho, hr]
            · rcases hl : m.config.create_contract_limit with _ | lim
              · simp [Machine.step, hf, ho, hr, hl]
              · by_cases hlen : lim < ret.length
                · simp [Machine.step, hf, ho, hr, hl, hlen]
                · simp [Machine.step, hf, ho, hr, hl, hlen]
      · simp [Machine.step, hf, ho]
      · simp [Machine.step, hf, ho]
      · simp [Machine.step, hf, ho]
    · simp [Machine.step, hf, ho]
    · simp [Machine.step, hf, ho]
    · simp [Machine.step, hf, ho]

theorem Machine.stepIter_succ_shift (m : Machine) (k : Nat) :
    Machine.stepIter m (k + 1) = Machine.stepIter (Machine.step m).1 k := by
  induction k with
  | zero => rfl
  | succ n ih =>
    show (Machine.step (Machine.stepIter m (n + 1))).1 = Machine.stepIter (Machine.step m).1 (n + 1)
    rw [ih]
    rfl

theorem Machine.execute_n_steps_pos_le (n : Nat) :
    ∀ m : Machine, (Machine.execute_n_steps m n).1.pos ≤ m.pos + n := by
  induction n with
  | zero => intro m; simp [Machine.execute_n_steps]
  | succ k ih =>
    intro m
    have hp := Machine.step_pos_le m
    rw [Machine.execute_n_steps]
    rcases hs : Machine.step m with ⟨m', o⟩
    rw [hs] at hp
    rcases o with _ | r
    · have := ih m'
      simp only at hp ⊢
      omega
    · simp only at hp ⊢
      omega

theorem Machine.execute_n_steps_all_ok (n : Nat) :
    ∀ m : Machine, (∀ k, k < n → (Machine.step (Machine.stepIter m k)).2 = none) →
      Machine.execute_n_steps m n = (Machine.stepIter m n, none) := by
  induction n with
  | zero => intro m _; rfl
  | succ k ih =>
    intro m h
    have h0 : (Machine.step m).2 = none := h 0 (by omega)
    rw [Machine.execute_n_steps]
    rcases hs : Machine.step m with ⟨m', o⟩
    rw [hs] at h0
    simp only at h0
    subst h0
    have hshift : Machine.stepIter m (k + 1) = Machine.stepIter m' k := by
      rw [Machine.stepIter_succ_shift, hs]
    rw [hshift]
    apply ih
    intro j hj
    have hj1 := h (j + 1) (by omega)
    rw [Machine.stepIter_succ_shift, hs] at hj1
    exact hj1

theorem Machine.execute_n_steps_early_stop (k : Nat) :
    ∀ (m : Machine) (n : Nat) (r : ExitReason) (m' : Machine), k < n →
      (∀ j, j < k → (Machine.step (Machine.stepIter m j)).2 = none) →
      Machine.step (Machine.stepIter m k) = (m', some r) →
      Machine.execute_n_steps m n = (m', some r) := by
  induction k with
  | zero =>
    intro m n r m' hk _ herr
    rcases n with _ | n'
    · omega
    · rw [Machine.execute_n_steps]
      have : Machine.stepIter m 0 = m := rfl
      rw [this] at herr
      rw [herr]
  | succ j ih =>
    intro m n r m' hk hok herr
    rcases n with _ | n'
    · omega
    · have h0 : (Machine.step m).2 = none := hok 0 (by omega)
      rw [Machine.execute_n_steps]
      rcases hs : Machine.step m with ⟨m1, o⟩
      rw [hs] at h0
      simp only at h0
      subst h0
      apply ih m1 n' r m' (by omega)
      · intro i hi
        have := hok (i + 1) (by omega)
        rw [Machine.stepIter_succ_shift, hs] at this
        exact this
      · rw [Machine.stepIter_succ_shift, hs] at herr
        exact herr

/-- Claim C2: `execute_n_steps(n)` invokes the underlying interpreter-step
primitive at most `n` times (the machine's invocation counter grows by at
most `n`); if the first `k < n` steps return `Ok` and the `k`-th step returns
`Err(r)`, the loop stops immediately: the result is exactly the machine
produced by that erring step together with `Err(r)`, so `step` is not invoked
again; and if all `n` steps return `Ok`, the result is `Ok(())` on the
`n`-times-stepped machine. -/
theorem machine_execute_n_steps_spec (m : Machine) (n : Nat) :
    (Machine.execute_n_steps m n).1.pos ≤ m.pos + n
  ∧ ((∀ k, k < n → (Machine.step (Machine.stepIter m k)).2 = none) →
      Machine.execute_n_steps m n = (Machine.stepIter m n, none))
  ∧ (∀ k r m', k < n →
      (∀ j, j < k → (Machine.step (Machine.stepIter m j)).2 = none) →
      Machine.step (Machine.stepIter m k) = (m', some r) →
      Machine.execute_n_steps m n = (m', some r)) := by
  refine ⟨Machine.execute_n_steps_pos_le n m, Machine.execute_n_steps_all_ok n m, ?_⟩
  intro k r m' hk hok herr
  exact Machine.execute_n_steps_early_stop k m n r m' hk hok herr

/-- An interpreter oracle whose first invocation is `Ok` and whose second
errors. -/
def oracleOkThenErr : Nat → StepOutcome :=
  fun k => if k = 0 then .ok else .exit (.error (.other 7)) []

/-- A two-frame machine driven by `oracleOkThenErr`. -/
def machineOkThenErr : Machine :=
  { frames := [frameEx, frameEx], state := stateEx, config := configEx,
    oracle := oracleOkThenErr, pos := 0 }

/-- Witness for claim C2: with a budget of three steps and an error on the
second, the loop returns that error and the machine produced by the erring
step. -/
theorem machine_execute_n_steps_spec_witness :
    Machine.execute_n_steps machineOkThenErr 3
      = ((Machine.step (Machine.stepIter machineOkThenErr 1)).1, some (.error (.other 7))) :=
  (machine_execute_n_steps_spec machineOkThenErr 3).2.2 1 (.error (.other 7))
    (Machine.step (Machine.stepIter machineOkThenErr 1)).1 (by omega)
    (fun j hj => by
      have hj0 : j = 0 := by omega
      subst hj0
      rfl)
    (by
      have h2 : (Machine.step (Machine.stepIter machineOkThenErr 1)).2
          = some (.error (.other 7)) := rfl
      exact Prod.ext rfl h2)

/-! ## Claim C4: CREATE2 collision detection -/

theorem Executor.create_create2 (kec : List Nat → List Nat)
    (rlp2 : List Nat → Nat → List Nat) (st : ExecutorState) (config : Config)
    (caller code_hash salt : List Nat) (value : Nat) (init_code : List Nat)
    (hdepth : ∀ d, st.metadata_depth = some d → d + 1 ≤ config.call_stack_limit) :
    Executor.create kec rlp2 st config caller (.create2 caller code_hash salt) value init_code
      = (st.inc_nonce caller,
         .trap init_code
           { address := create2Address kec caller code_hash salt, caller := caller,
             apparent_value := value }
           (create2Address kec caller code_hash salt)) := by
  rcases hd : st.metadata_depth with _ | d
  · simp [Executor.create, hd, Executor.createCont]
  · have h := hdepth d hd
    simp [Executor.create, hd, Executor.createCont, Nat.not_lt.mpr h]

/-- Claim C4 (amended): two consecutive creates with identical
`(caller, code, salt)` both return a `CreateInterrupt` trap carrying the same
CREATE2 address — the second does *not* return `Error(CreateCollision)`: the
collision checks (existing code or non-zero nonce at the would-be address)
are commented out in `Executor::create`, so no `CreateCollision` is ever
produced on this path. -/
theorem executor_create_no_collision_check (kec : List Nat → List Nat)
    (rlp2 : List Nat → Nat → List Nat) (st : ExecutorState) (config : Config)
    (caller code_hash salt : List Nat) (value : Nat) (init_code : List Nat)
    (hdepth : ∀ d, st.metadata_depth = some d → d + 1 ≤ config.call_stack_limit) :
    (Executor.create kec rlp2 st config caller (.create2 caller code_hash salt)
        value init_code).2
      = .trap init_code
          { address := create2Address kec caller code_hash salt, caller := caller,
            apparent_value := value }
          (create2Address kec caller code_hash salt)
  ∧ (Executor.create kec rlp2
        (Executor.create kec rlp2 st config caller (.create2 caller code_hash salt)
          value init_code).1
        config caller (.create2 caller code_hash salt) value init_code).2
      = (Executor.create kec rlp2 st config caller (.create2 caller code_hash salt)
          value init_code).2
  ∧ (∀ a ret,
      (Executor.create kec rlp2
          (Executor.create kec rlp2 st config caller (.create2 caller code_hash salt)
            value init_code).1
          config caller (.create2 caller code_hash salt) value init_code).2
        ≠ .exit (.error .createCollision) a ret) := by
  have h1 := Executor.create_create2 kec rlp2 st config caller code_hash salt value
    init_code hdepth
  have hdepth2 : ∀ d, (st.inc_nonce caller).metadata_depth = some d →
      d + 1 ≤ config.call_stack_limit := by
    intro d hd
    exact hdepth d hd
  have h2 := Executor.create_create2 kec rlp2 (st.inc_nonce caller) config caller
    code_hash salt value init_code hdepth2
  rw [h1]
  refine ⟨rfl, ?_, ?_⟩
  · simp only
    rw [h2]
  · intro a ret
    simp only
    rw [h2]
    simp

/-- A stand-in hash function for evaluating the embedding at concrete inputs;
the collision behaviour of `Executor::create` does not depend on the hash
values. -/
def kecEx : List Nat → List Nat := fun l => List.replicate 32 (l.length % 256)

/-- A stand-in for the external RLP encoding of `(caller, nonce)`. -/
def rlp2Ex : List Nat → Nat → List Nat := fun a n => a ++ toLE 8 n

/-- An executor state at call depth 0. -/
def stC4 : ExecutorState :=
  { substates := [[]]
    nonce := fun _ => 0
    codes := fun _ => []
    metadata_depth := some 0
    events := [] }

/-- Caller address for the two-creates scenario. -/
def callerC4 : List Nat := List.replicate 20 4

/-- Code hash for the two-creates scenario. -/
def chC4 : List Nat := List.replicate 32 9

/-- Salt for the two-creates scenario. -/
def saltC4 : List Nat := List.replicate 32 5

/-- Init code for the two-creates scenario. -/
def codeC4 : List Nat := [1, 2, 3]

/-- First of the two identical creates. -/
def createFirstC4 : ExecutorState × CreateCapture :=
  Executor.create kecEx rlp2Ex stC4 configEx callerC4 (.create2 callerC4 chC4 saltC4) 0 codeC4

/-- Second create, run on the state left by the first. -/
def createSecondC4 : ExecutorState × CreateCapture :=
  Executor.create kecEx rlp2Ex createFirstC4.1 configEx callerC4
    (.create2 callerC4 chC4 saltC4) 0 codeC4

/-- Counterexample to claim C4: the second of two consecutive creates with
identical `(caller, code, salt)` returns a `CreateInterrupt` trap, not
`Error(CreateCollision)` — the would-be address is never inspected. -/
theorem create_collision_counterexample :
    createSecondC4.2
      = .trap codeC4
          { address := List.replicate 20 85, caller := callerC4, apparent_value := 0 }
          (List.replicate 20 85)
    ∧ createSecondC4.2 ≠ .exit (.error .createCollision) none [] := by
  exact ⟨by decide, by decide⟩

/-- Witness for claim C4 (amended) at the concrete two-creates scenario. -/
theorem executor_create_no_collision_check_witness :
    createSecondC4.2 = createFirstC4.2
    ∧ createSecondC4.2 ≠ .exit (.error .createCollision) none [] := by
  have h := executor_create_no_collision_check kecEx rlp2Ex stC4 configEx callerC4
    chC4 saltC4 0 codeC4
    (fun d hd => by
      have h0 : (some 0 : Option Nat) = some d := hd
      cases h0
      decide)
  exact ⟨h.2.1, h.2.2 none []⟩
